import Mathlib

/-!
Verification of `stock_market.py`.

The module holds a `Stock` class (dividend yield, P/E ratio, trade
recording, volume-weighted stock price over a trailing 15-minute window)
and a stand-alone `calculate_geometric_mean` function.  We embed the
numeric values as rationals (`ℚ`), except where the code takes a square
root, which we model over the reals.  The implicit wall-clock reads of Python
(`time.time()`) become an explicit `now : ℚ` argument, and the Python
`round(x, 2)` becomes rounding of `x * 100` to the nearest integer,
divided by 100.  A Python function that can fall through without a
`return` yields an `Option` value, `none` standing for the Python value `None`.
-/

namespace StockMarket

/-- The Python `round(x, 2)` over the rationals: round `x * 100` to the
nearest integer and divide by 100. -/
def round2 (x : ℚ) : ℚ := ((round (x * 100) : ℤ) : ℚ) / 100

/-- The Python `round(x, 2)` over the reals (used after `math.sqrt`). -/
noncomputable def round2R (x : ℝ) : ℝ := ((round (x * 100) : ℤ) : ℝ) / 100

/-- One entry of `Stock.trades`: the dict with keys timestamp, quantity,
indicator and price built by `record_trade`. -/
structure Trade where
  timestamp : ℚ
  quantity : ℚ
  indicator : String
  price : ℚ
deriving DecidableEq

/-- The `Stock` class: fields set by `__init__`, plus the `trades` list. -/
structure Stock where
  symbol : String
  stock_type : String
  last_dividend : ℚ
  fixed_dividend : Option ℚ := none
  par_value : ℚ := 0
  trades : List Trade := []
deriving DecidableEq

/-- `Stock.calculate_dividend_yield`: guard `price <= 0`, then dispatch on
`stock_type`; the `if`/`elif` chain has no `else`, so any other type falls
through and Python returns `None`. -/
def calculate_dividend_yield (s : Stock) (price : ℚ) : Option ℚ :=
  if price ≤ 0 then none
  else if s.stock_type = "Common" then some (s.last_dividend / price)
  else if s.stock_type = "Preferred" then
    match s.fixed_dividend with
    | none => none
    | some fd => some (round2 (fd * s.par_value / price))
  else none

/-- `Stock.calculate_pe_ratio`: guards on `price <= 0` and
`last_dividend == 0`, otherwise `round(price / last_dividend, 2)`. -/
def calculate_pe_ratio (s : Stock) (price : ℚ) : Option ℚ :=
  if price ≤ 0 then none
  else if s.last_dividend = 0 then none
  else some (round2 (price / s.last_dividend))

/-- `Stock.record_trade`: appends one trade dict with
`timestamp = time.time()` (here the explicit `now`) to `self.trades`.
The `print` call is an I/O side effect with no bearing on state. -/
def record_trade (s : Stock) (quantity : ℚ) (indicator : String)
    (price : ℚ) (now : ℚ) : Stock :=
  { s with trades :=
      s.trades ++ [⟨now, quantity, indicator, price⟩] }

/-- Loop body of `calculate_volume_weighted_stock_price`: the running pair
`(total_price_quantity, total_quantity)` is updated by a trade only when
`now - trade.timestamp <= 15 * 60`. -/
def vwspStep (now : ℚ) (acc : ℚ × ℚ) (trade : Trade) : ℚ × ℚ :=
  if now - trade.timestamp ≤ 15 * 60 then
    (acc.1 + trade.price * trade.quantity, acc.2 + trade.quantity)
  else acc

/-- `Stock.calculate_volume_weighted_stock_price`, with `time.time()`
made the explicit argument `now`: fold the loop body over `self.trades`
starting from `(0, 0)`; if `total_quantity == 0` return `None`, else
`round(total_price_quantity / total_quantity, 2)`. -/
def calculate_volume_weighted_stock_price (s : Stock) (now : ℚ) : Option ℚ :=
  let acc := s.trades.foldl (vwspStep now) (0, 0)
  if acc.2 = 0 then none else some (round2 (acc.1 / acc.2))

/-- The trades of `s` inside the trailing 15-minute window ending at
`now` (specification-side view of the loop condition). -/
def tradesInWindow (s : Stock) (now : ℚ) : List Trade :=
  s.trades.filter (fun t => now - t.timestamp ≤ 15 * 60)

/-- Loop body of `calculate_geometric_mean`: walk the prices keeping the
running product, returning `None` as soon as a price `<= 0` appears; at
the end of the list, `round(math.sqrt(product), 2)`. -/
noncomputable def geoLoop : List ℚ → ℚ → Option ℝ
  | [], product => some (round2R (Real.sqrt (product : ℝ)))
  | price :: rest, product =>
      if price ≤ 0 then none else geoLoop rest (product * price)

/-- `calculate_geometric_mean`: `None` on the empty list, else the loop
above starting from `product = 1`. -/
noncomputable def calculate_geometric_mean (prices : List ℚ) : Option ℝ :=
  if prices.length = 0 then none
  else geoLoop prices 1

/-- The value claimed by the specification for the geometric mean: `None`
when the collection is empty or holds an element `<= 0`, otherwise the
true n-th root of the product, `round((∏ prices)^(1/n), 2)`.  Stated for
comparison against `calculate_geometric_mean`. -/
noncomputable def spec_geometric_mean (prices : List ℚ) : Option ℝ :=
  if prices = [] ∨ ∃ p ∈ prices, p ≤ 0 then none
  else some (round2R (((prices.map (fun p => (p : ℝ))).prod)
    ^ ((1 : ℝ) / prices.length)))

/-- Concrete `Stock` mirroring the demo stock `pop` after its two demo
trades, with timestamps made explicit (0 and 1 second). -/
def popStock : Stock :=
  { symbol := "POP", stock_type := "Common", last_dividend := 8,
    fixed_dividend := none, par_value := 100,
    trades := [⟨0, 50, "buy", 150⟩, ⟨1, 25, "sell", 140⟩] }

/-- Concrete `Stock` mirroring the demo stock `gin` (Preferred, rate 0.02,
par value 100). -/
def ginStock : Stock :=
  { symbol := "GIN", stock_type := "Preferred", last_dividend := 8,
    fixed_dividend := some (1 / 50), par_value := 100, trades := [] }

/-- A stock whose only trade has quantity 0: its 15-minute window is
non-empty yet the summed quantity is 0. -/
def zeroQtyStock : Stock :=
  { symbol := "ZRO", stock_type := "Common", last_dividend := 1,
    fixed_dividend := none, par_value := 100,
    trades := [⟨0, 0, "buy", 10⟩] }

/-- A stock whose `stock_type` is neither Common nor Preferred, for the
fall-through branch of `calculate_dividend_yield`. -/
def bondStock : Stock :=
  { symbol := "BND", stock_type := "Bond", last_dividend := 5,
    fixed_dividend := none, par_value := 100, trades := [] }

/-- C3: for a Common security and a positive price, the dividend yield is
`last_dividend / price`, at full precision and unrounded. -/
theorem dividend_yield_common (s : Stock) (price : ℚ)
    (hs : s.stock_type = "Common") (hp : 0 < price) :
    calculate_dividend_yield s price = some (s.last_dividend / price) := by
  simp [calculate_dividend_yield, hs, not_le.mpr hp]

/-- Witness for C3 at the demo stock `pop` and price 1000. -/
theorem dividend_yield_common_witness :
    popStock.stock_type = "Common" ∧ (0 : ℚ) < 1000 ∧
      calculate_dividend_yield popStock 1000 = some (8 / 1000) :=
  ⟨rfl, by norm_num, dividend_yield_common popStock 1000 rfl (by norm_num)⟩

/-- C4: for a Preferred security and a positive price, the dividend yield
is `None` when `fixed_dividend` is undefined, and otherwise
`round(fixed_dividend * par_value / price, 2)`. -/
theorem dividend_yield_preferred (s : Stock) (price : ℚ)
    (hs : s.stock_type = "Preferred") (hp : 0 < price) :
    (s.fixed_dividend = none → calculate_dividend_yield s price = none) ∧
      ∀ fd : ℚ, s.fixed_dividend = some fd →
        calculate_dividend_yield s price
          = some (round2 (fd * s.par_value / price)) := by
  constructor
  · intro hfd
    simp [calculate_dividend_yield, hs, hfd, not_le.mpr hp]
  · intro fd hfd
    simp [calculate_dividend_yield, hs, hfd, not_le.mpr hp]

/-- Witness for C4 at the demo stock `gin` (rate 1/50, par 100) and
price 1800. -/
theorem dividend_yield_preferred_witness :
    ginStock.stock_type = "Preferred" ∧ (0 : ℚ) < 1800 ∧
      ginStock.fixed_dividend = some (1 / 50) ∧
      calculate_dividend_yield ginStock 1800
        = some (round2 (1 / 50 * 100 / 1800)) :=
  ⟨rfl, by norm_num, rfl,
    (dividend_yield_preferred ginStock 1800 rfl (by norm_num)).2
      (1 / 50) rfl⟩

/-- C5: the P/E ratio is `None` exactly when `price <= 0` or
`last_dividend = 0`, and otherwise `round(price / last_dividend, 2)`. -/
theorem pe_ratio_characterization (s : Stock) (price : ℚ) :
    calculate_pe_ratio s price
      = if price ≤ 0 ∨ s.last_dividend = 0 then none
        else some (round2 (price / s.last_dividend)) := by
  by_cases h1 : price ≤ 0 <;> by_cases h2 : s.last_dividend = 0 <;>
    simp [ calculate_pe_ratio, h1, h2]

/-- C6: for any security, a non-positive price makes both the dividend
yield and the P/E ratio return `None`. -/
theorem nonpositive_price_undefined (s : Stock) (price : ℚ)
    (hp : price ≤ 0) :
    calculate_dividend_yield s price = none ∧
      calculate_pe_ratio s price = none := by
  exact ⟨by simp [calculate_dividend_yield, hp],
    by simp [ calculate_pe_ratio, hp]⟩

/-- Witness for C6 at the demo stock `pop` and price 0. -/
theorem nonpositive_price_undefined_witness :
    (0 : ℚ) ≤ 0 ∧
      (calculate_dividend_yield popStock 0 = none ∧
        calculate_pe_ratio popStock 0 = none) :=
  ⟨le_refl 0, nonpositive_price_undefined popStock 0 (le_refl 0)⟩

/-- C9: a security whose type is neither Common nor Preferred falls
through the `if`/`elif` chain of `calculate_dividend_yield`, which
returns `None` rather than raising, for any positive price. -/
theorem dividend_yield_other_type (s : Stock) (price : ℚ)
    (h1 : s.stock_type ≠ "Common") (h2 : s.stock_type ≠ "Preferred")
    (hp : 0 < price) :
    calculate_dividend_yield s price = none := by
  simp [calculate_dividend_yield, h1, h2, not_le.mpr hp]

/-- Witness for C9 at a stock of type Bond and price 42. -/
theorem dividend_yield_other_type_witness :
    bondStock.stock_type ≠ "Common" ∧ bondStock.stock_type ≠ "Preferred" ∧
      (0 : ℚ) < 42 ∧ calculate_dividend_yield bondStock 42 = none :=
  ⟨by decide, by decide, by norm_num,
    dividend_yield_other_type bondStock 42 (by decide) (by decide)
      (by norm_num)⟩

/-- A stock holding a single earlier trade, used to exercise
`record_trade`. -/
def oneTradeStock : Stock :=
  { symbol := "ONE", stock_type := "Common", last_dividend := 3,
    fixed_dividend := none, par_value := 100,
    trades := [⟨0, 1, "buy", 10⟩] }

/-- C8: `record_trade` accepts any quantity, indicator and price, appends
exactly one trade stamped with the call time, keeps all earlier entries
unchanged, and therefore preserves the non-decreasing timestamp order of
the log when the call time is no earlier than every logged trade. -/
theorem record_trade_appends (s : Stock) (q : ℚ) (ind : String)
    (p now : ℚ) :
    (record_trade s q ind p now).trades
        = s.trades ++ [⟨now, q, ind, p⟩] ∧
      (List.Pairwise (fun a b : Trade => a.timestamp ≤ b.timestamp)
          s.trades →
        (∀ t ∈ s.trades, t.timestamp ≤ now) →
        List.Pairwise (fun a b : Trade => a.timestamp ≤ b.timestamp)
          (record_trade s q ind p now).trades) := by
  refine ⟨rfl, fun hsorted hle => ?_⟩
  unfold record_trade
  refine List.pairwise_append.mpr ⟨hsorted, ?_, ?_⟩
  · simp
  · intro a ha b hb
    rw [List.mem_singleton] at hb
    subst hb
    exact hle a ha

/-- Witness for C8: recording a trade at time 5 on a stock whose only
trade has timestamp 0. -/
theorem record_trade_appends_witness :
    List.Pairwise (fun a b : Trade => a.timestamp ≤ b.timestamp)
        oneTradeStock.trades ∧
      (record_trade oneTradeStock 2 "sell" 20 5).trades
          = [⟨0, 1, "buy", 10⟩, ⟨5, 2, "sell", 20⟩] ∧
      List.Pairwise (fun a b : Trade => a.timestamp ≤ b.timestamp)
        (record_trade oneTradeStock 2 "sell" 20 5).trades :=
  ⟨by decide,
    (record_trade_appends oneTradeStock 2 "sell" 20 5).1,
    (record_trade_appends oneTradeStock 2 "sell" 20 5).2
      (by decide) (by decide)⟩

/-- The loop of `calculate_volume_weighted_stock_price` computes the two
sums taken over the trades whose timestamp lies in the 15-minute
window. -/
theorem foldl_vwspStep (now : ℚ) (l : List Trade) :
    ∀ a b : ℚ,
      l.foldl (vwspStep now) (a, b)
        = (a + ((l.filter (fun t => now - t.timestamp ≤ 15 * 60)).map
              (fun t => t.price * t.quantity)).sum,
           b + ((l.filter (fun t => now - t.timestamp ≤ 15 * 60)).map
              (fun t => t.quantity)).sum) := by
  induction l with
  | nil => intro a b; simp
  | cons t l ih =>
    intro a b
    rw [List.foldl_cons]
    by_cases h : now - t.timestamp ≤ 15 * 60
    · have hstep : vwspStep now (a, b) t
          = (a + t.price * t.quantity, b + t.quantity) := by
        simp [vwspStep, h]
      rw [hstep, ih, List.filter_cons, if_pos (decide_eq_true h),
        List.map_cons, List.map_cons, List.sum_cons, List.sum_cons,
        Prod.mk.injEq]
      constructor <;> ring
    · have hstep : vwspStep now (a, b) t = (a, b) := by
        simp [vwspStep, h]
      rw [hstep, ih, List.filter_cons, if_neg (by simpa using h)]

/-- C2: whenever the quantities of the trades inside the trailing
15-minute window sum to a non-zero value, the volume-weighted stock price
is the quantity-weighted average price over exactly those trades, rounded
to 2 decimal places; and it is `None` whenever no trade falls inside the
window (in particular on an empty log). -/
theorem vwsp_weighted_average (s : Stock) (now : ℚ) :
    (((tradesInWindow s now).map (fun t => t.quantity)).sum ≠ 0 →
      calculate_volume_weighted_stock_price s now
        = some (round2
            ((((tradesInWindow s now).map
                (fun t => t.price * t.quantity)).sum)
              / (((tradesInWindow s now).map
                (fun t => t.quantity)).sum)))) ∧
      (tradesInWindow s now = [] →
        calculate_volume_weighted_stock_price s now = none) := by
  constructor
  · intro hq
    simp only [tradesInWindow] at hq
    simp only [calculate_volume_weighted_stock_price, tradesInWindow,
      foldl_vwspStep, zero_add]
    rw [if_neg hq]
  · intro hempty
    simp only [tradesInWindow] at hempty
    simp only [calculate_volume_weighted_stock_price, tradesInWindow,
      foldl_vwspStep, zero_add, hempty]
    simp

/-- Witness for C2 at the demo stock `pop` queried at time 10: both
trades are in the window, and the result is
round((150*50 + 140*25) / (50 + 25), 2) = 146.67. -/
theorem vwsp_weighted_average_witness :
    ((tradesInWindow popStock 10).map (fun t => t.quantity)).sum ≠ 0 ∧
      calculate_volume_weighted_stock_price popStock 10
        = some (14667 / 100) := by
  have hq : ((tradesInWindow popStock 10).map
      (fun t => t.quantity)).sum ≠ 0 := by
    norm_num [tradesInWindow, popStock]
  refine ⟨hq, ?_⟩
  rw [(vwsp_weighted_average popStock 10).1 hq]
  norm_num [tradesInWindow, popStock, round2, round_eq]

/-- C10: the volume-weighted stock price is `None` exactly when the
quantities of the trades inside the 15-minute window sum to zero, so the
division is never taken with a zero denominator; the window can be
non-empty in that situation, as a logged trade of quantity 0 shows
(`record_trade` validates nothing). -/
theorem vwsp_none_iff_zero_quantity :
    (∀ (s : Stock) (now : ℚ),
        calculate_volume_weighted_stock_price s now = none ↔
          ((tradesInWindow s now).map (fun t => t.quantity)).sum = 0) ∧
      tradesInWindow zeroQtyStock 0 ≠ [] ∧
      calculate_volume_weighted_stock_price zeroQtyStock 0 = none := by
  refine ⟨fun s now => ?_,
    by norm_num [tradesInWindow, zeroQtyStock],
    by norm_num [calculate_volume_weighted_stock_price, zeroQtyStock,
      vwspStep]⟩
  simp only [calculate_volume_weighted_stock_price, tradesInWindow,
    foldl_vwspStep, zero_add]
  constructor
  · intro hnone
    by_contra hq
    rw [if_neg hq] at hnone
    exact Option.some_ne_none _ hnone
  · intro hq
    rw [if_pos hq]

/-- The loop of `calculate_geometric_mean` returns `None` whenever the
remaining prices hold an element `<= 0`, whatever the running product. -/
theorem geoLoop_eq_none {p : ℚ} (hp : p ≤ 0) :
    ∀ l : List ℚ, p ∈ l → ∀ acc : ℚ, geoLoop l acc = none := by
  intro l
  induction l with
  | nil => intro h; cases h
  | cons q rest ih =>
    intro hmem acc
    by_cases hq : q ≤ 0
    · simp [geoLoop, hq]
    · have hrest : p ∈ rest := by
        rcases List.mem_cons.mp hmem with h | h
        · exact absurd (h ▸ hp) hq
        · exact h
      simp [geoLoop, hq, ih hrest]

/-- C7: `calculate_geometric_mean` returns `None` on the empty collection
and on any collection holding an element `<= 0`. -/
theorem geometric_mean_empty_or_nonpositive :
    calculate_geometric_mean [] = none ∧
      ∀ (prices : List ℚ) (p : ℚ), p ∈ prices → p ≤ 0 →
        calculate_geometric_mean prices = none := by
  constructor
  · simp [calculate_geometric_mean]
  · intro prices p hmem hp
    unfold calculate_geometric_mean
    have hne : prices.length ≠ 0 := by
      cases prices
      · cases hmem
      · simp
    rw [if_neg hne]
    exact geoLoop_eq_none hp prices hmem 1

/-- Witness for C7 at the collection `[-1, 5]` from the specification. -/
theorem geometric_mean_empty_or_nonpositive_witness :
    (-1 : ℚ) ∈ [(-1 : ℚ), 5] ∧ (-1 : ℚ) ≤ 0 ∧
      calculate_geometric_mean [(-1 : ℚ), 5] = none :=
  ⟨by norm_num, by norm_num,
    geometric_mean_empty_or_nonpositive.2 [(-1 : ℚ), 5] (-1)
      (by norm_num) (by norm_num)⟩

/-- C1: on three equal prices 4, the code returns
`round(sqrt(4 * 4 * 4), 2) = 8`, while the geometric mean claimed by the
specification is `round((4 * 4 * 4)^(1/3), 2) = 4`: the code takes a
square root regardless of the number of elements, which matches the
claimed n-th root only for n = 2. -/
theorem geometric_mean_sqrt_not_nth_root :
    calculate_geometric_mean [4, 4, 4] = some 8 ∧
      spec_geometric_mean [4, 4, 4] = some 4 := by
  constructor
  · have h1 : calculate_geometric_mean [4, 4, 4]
        = some (round2R (Real.sqrt ((64 : ℚ) : ℝ))) := by
      norm_num [calculate_geometric_mean, geoLoop]
    rw [h1]
    have hsqrt : Real.sqrt ((64 : ℚ) : ℝ) = 8 := by
      rw [show ((64 : ℚ) : ℝ) = (8 : ℝ) ^ 2 by norm_num]
      exact Real.sqrt_sq (by norm_num)
    rw [hsqrt]
    have : round ((8 : ℝ) * 100) = (800 : ℤ) := by
      rw [show (8 : ℝ) * 100 = ((800 : ℤ) : ℝ) by norm_num]
      exact round_intCast 800
    rw [round2R, this]
    norm_num
  · have hcond : ¬([(4 : ℚ), 4, 4] = [] ∨
        ∃ p ∈ [(4 : ℚ), 4, 4], p ≤ 0) :=
      not_or.mpr ⟨by simp, by norm_num⟩
    rw [spec_geometric_mean, if_neg hcond]
    have hprod : (([(4 : ℚ), 4, 4].map (fun p => (p : ℝ))).prod)
        = (4 : ℝ) ^ ((3 : ℕ) : ℝ) := by
      rw [Real.rpow_natCast]
      norm_num
    have hlen : (([(4 : ℚ), 4, 4].length : ℝ)) = 3 := by norm_num
    rw [hprod, hlen, ← Real.rpow_mul (by norm_num : (0 : ℝ) ≤ 4)]
    norm_num
    have : round ((4 : ℝ) * 100) = (400 : ℤ) := by
      rw [show (4 : ℝ) * 100 = ((400 : ℤ) : ℝ) by norm_num]
      exact round_intCast 400
    rw [round2R, this]
    norm_num

end StockMarket
